import Mathlib

/-!
Verification of the ektest test-execution engine against its specification.

The development shallowly embeds the core of the engine:
  * `lib/colors.js`  — terminal color wrappers (pure string functions);
  * `lib/expect.js`  — the assertion engine (`Expect` class and its matchers);
  * `lib/progress.js`— the progress store (logs, counters, per-file failures);
  * `lib/test.js`    — the test registrar (the deferred per-test closure);
  * `lib/summary.js` — the runner / summary entry point.

JavaScript values are modelled by the inductive `JSValue`; JS numbers are
modelled as integers plus a distinguished NaN (none of the verified claims
involve non-integer arithmetic).  Object identity (reference equality of
arrays/objects) is not modelled: two composite values built from distinct
literals are never reference-equal in JS, and `strictEq`/`sameValueZero`
return `false` on composites accordingly.  Thrown JS exceptions are modelled
by `Except`/explicit error components.  Wall-clock timing text (the output of
`toFixed`/`convertTime`) is threaded as an opaque string parameter `tms`,
since timing is outside the model; it never influences control flow.

The verbosity enumeration lives in `lib/config.js`, which is not part of the
sources; it is modelled from the spec as a three-valued enumeration
(None | Summary | Detailed) whose values are pairwise distinct, which is the
only property the core uses (`===`/`!==` comparisons).
-/

namespace Ektest

/-- Modelled from the spec: `lib/config.js` (absent from the sources) defines the
verbosity enumeration `VERBOSE_TYPE_NONE` / `VERBOSE_TYPE_SUMMARY` /
`VERBOSE_TYPE_DETAILED`; the core only compares these values for (in)equality. -/
inductive Verbose
  | NONE
  | SUMMARY
  | DETAILED
deriving DecidableEq, Repr

/-- `lib/colors.js`: wrap text in the red ANSI color code. -/
def RED (text : String) : String := "\x1b[31m" ++ text ++ "\x1b[0m"

/-- `lib/colors.js`: green. -/
def GREEN (text : String) : String := "\x1b[32m" ++ text ++ "\x1b[0m"

/-- `lib/colors.js`: yellow. -/
def YELLOW (text : String) : String := "\x1b[33m" ++ text ++ "\x1b[0m"

/-- `lib/colors.js`: blue. -/
def BLUE (text : String) : String := "\x1b[34m" ++ text ++ "\x1b[0m"

/-- `lib/colors.js`: magenta. -/
def MAGENTA (text : String) : String := "\x1b[35m" ++ text ++ "\x1b[0m"

/-- `lib/colors.js`: cyan. -/
def CYAN (text : String) : String := "\x1b[36m" ++ text ++ "\x1b[0m"

/-- `lib/colors.js`: white. -/
def WHITE (text : String) : String := "\x1b[37m" ++ text ++ "\x1b[0m"

/-- A JavaScript number: either NaN or an integer.  The claims under
verification never perform non-integer arithmetic, so the integer fragment of
JS numbers is a faithful carrier for them. -/
inductive JSNum
  | nan
  | int (n : Int)

/-- A JavaScript value, as far as the assertion engine observes it. -/
inductive JSValue
  | undef
  | null
  | bool (b : Bool)
  | num (n : JSNum)
  | str (s : String)
  | arr (elems : List JSValue)
  | obj (fields : List (String × JSValue))

/-- JS `typeof`. -/
def JSValue.typeof : JSValue → String
  | .undef => "undefined"
  | .null => "object"
  | .bool _ => "boolean"
  | .num _ => "number"
  | .str _ => "string"
  | .arr _ => "object"
  | .obj _ => "object"

/-- JS truthiness (the coercion applied by `if (x)`): `false`, `0`, `NaN`,
the empty string, `null` and `undefined` are falsy, everything else truthy. -/
def JSValue.truthy : JSValue → Bool
  | .undef => false
  | .null => false
  | .bool b => b
  | .num .nan => false
  | .num (.int n) => n != 0
  | .str s => s != ""
  | .arr _ => true
  | .obj _ => true

/-- `Array.isArray`. -/
def JSValue.isArrayV : JSValue → Bool
  | .arr _ => true
  | _ => false

/-- Whether the value is a plain (non-null, non-array) object. -/
def JSValue.isObjV : JSValue → Bool
  | .obj _ => true
  | _ => false

/-- JS strict equality `===` restricted to this value model.  `NaN === NaN` is
false.  Composite values compare by reference in JS; distinct literals are
never reference-equal, and aliasing is not modelled, so composites compare
`false` here. -/
def strictEq : JSValue → JSValue → Bool
  | .undef, .undef => true
  | .null, .null => true
  | .bool a, .bool b => a == b
  | .num (.int a), .num (.int b) => a == b
  | .str a, .str b => a == b
  | _, _ => false

/-- The SameValueZero comparison used by `Array.prototype.includes`: like
`===` but `NaN` equals `NaN`.  Composites: see `strictEq`. -/
def sameValueZero : JSValue → JSValue → Bool
  | .num .nan, .num .nan => true
  | a, b => strictEq a b

/-- `Array.prototype.includes`. -/
def jsIncludes (xs : List JSValue) (x : JSValue) : Bool :=
  xs.any (fun e => sameValueZero e x)

mutual

/-- JS string coercion (template-literal interpolation `${x}`). Arrays join
their elements with commas (`Array.prototype.toString`), objects render as
`[object Object]`. -/
def jsToString : JSValue → String
  | .undef => "undefined"
  | .null => "null"
  | .bool b => cond b "true" "false"
  | .num .nan => "NaN"
  | .num (.int n) => toString n
  | .str s => s
  | .arr xs => jsToStringElems xs
  | .obj _ => "[object Object]"

/-- Element rendering inside `Array.prototype.toString`: `null`/`undefined`
become empty, elements are comma-separated. -/
def jsToStringElems : List JSValue → String
  | [] => ""
  | [x] =>
    match x with
    | .undef => ""
    | .null => ""
    | y => jsToString y
  | x :: xs =>
    (match x with
     | .undef => ""
     | .null => ""
     | y => jsToString y) ++ "," ++ jsToStringElems xs

end

/-- The escaping `JSON.stringify` applies inside string literals (the verified
claims only exercise quote, backslash and the common control characters). -/
def jsonEscapeChar (c : Char) : String :=
  if c = '"' then "\\\""
  else if c = '\\' then "\\\\"
  else if c = '\n' then "\\n"
  else if c = '\t' then "\\t"
  else if c = '\r' then "\\r"
  else String.mk [c]

/-- JSON string literal for `s`. -/
def jsonQuote (s : String) : String :=
  "\"" ++ String.join (s.data.map jsonEscapeChar) ++ "\""

mutual

/-- `JSON.stringify`.  Inside arrays `undefined` serializes as `null`; object
fields with `undefined` values are omitted.  A top-level `undefined` is never
serialized by the engine (`Expect.expectation` filters it out first). -/
def jsonStringify : JSValue → String
  | .undef => "undefined"
  | .null => "null"
  | .bool b => cond b "true" "false"
  | .num .nan => "null"
  | .num (.int n) => toString n
  | .str s => jsonQuote s
  | .arr xs => "[" ++ jsonElems xs ++ "]"
  | .obj fs => "\x7b" ++ jsonFields fs ++ "\x7d"

/-- Comma-separated array elements for `jsonStringify`. -/
def jsonElems : List JSValue → String
  | [] => ""
  | [x] =>
    match x with
    | .undef => "null"
    | y => jsonStringify y
  | x :: xs =>
    (match x with
     | .undef => "null"
     | y => jsonStringify y) ++ "," ++ jsonElems xs

/-- Comma-separated object fields for `jsonStringify` (fields holding
`undefined` are dropped). -/
def jsonFields : List (String × JSValue) → String
  | [] => ""
  | (_, .undef) :: fs => jsonFields fs
  | [(k, v)] => jsonQuote k ++ ":" ++ jsonStringify v
  | (k, v) :: fs =>
    let rest := jsonFields fs
    let here := jsonQuote k ++ ":" ++ jsonStringify v
    if rest = "" then here else here ++ "," ++ rest

end

/-- The property-key coercion applied by the `in` operator (`String(key)`). -/
def toPropertyKey (v : JSValue) : String := jsToString v

/-- A thrown JS error as the engine observes it: its `name` (`"TestError"`,
`"Error"`, `"TypeError"`), its `message`, and the optional `actual`/`expected`
payload of `TestError`.  The location/code-snippet decoration that
`TestError.#formatErrorMessage` appends to the message reads the failing
source file from disk and the V8 stack; it is diagnostic output outside this
model, so `message` here is the string passed to the constructor. -/
structure JsError where
  name : String
  message : String
  actual : Option JSValue := none
  expected : Option JSValue := none

/-- `lib/progress.js`: a log entry `[type, message, title]`. -/
inductive LogType
  | log
  | error
deriving DecidableEq, Repr

/-- One entry of the progress store's `logs` array. -/
structure LogEntry where
  type : LogType
  message : String
  title : Bool
deriving DecidableEq, Repr

/-- The separator text `Array(message.length).join("-")`: an array of `n`
holes joined with `n - 1` dashes, hence one dash fewer than the message
length (and empty for the empty message). -/
def sepOf (message : String) : String :=
  String.mk (List.replicate (message.length - 1) '-')

/-- `progress.addLog(message, type, title)`: append the entry; when `title`
is set additionally append the auto-generated separator entry (itself carrying
the title flag).  Returns the new log list and the index of the added entry. -/
def addLog (logs : List LogEntry) (message : String)
    (type : LogType := LogType.log) (title : Bool := false) :
    List LogEntry × Nat :=
  let index := logs.length
  let logs := logs ++ [⟨type, message, title⟩]
  let logs := if title then logs ++ [⟨LogType.log, sepOf message, true⟩] else logs
  (logs, index)

/-- JS assignment `xs[j] = e`: overwrite in bounds, append at `length`. -/
def listAssign (logs : List LogEntry) (j : Nat) (e : LogEntry) : List LogEntry :=
  if j < logs.length then logs.set j e else logs ++ [e]

/-- `progress.setLog(index, message, type)`: rewrite the entry in place,
keeping its title flag; when that flag is set, also rewrite the following slot
to the separator for the new message.  Out-of-bounds indices throw. -/
def setLog (logs : List LogEntry) (index : Int) (message : String)
    (type : LogType := LogType.log) : Except JsError (List LogEntry) :=
  if 0 ≤ index ∧ index < (logs.length : Int) then
    let i := index.toNat
    let old := logs.getD i ⟨LogType.log, "", false⟩
    let logs := logs.set i ⟨type, message, old.title⟩
    if old.title then
      Except.ok (listAssign logs (i + 1) ⟨LogType.log, sepOf message, true⟩)
    else
      Except.ok logs
  else
    Except.error ⟨"Error", "Index " ++ toString index ++ " is out of bounds for logs array.", none, none⟩

/-- The progress store (`lib/progress.js`): log sequence, counters, per-file
failure counts, and the abort signal.  `aborted`/`abortMessage` are read by
`lib/summary.js`; they are set by the external `abort(message?)` entry point
(declared in `index.d.ts`, implementation not among the sources), modelled
from the spec as setting the flag and message. -/
structure ProgressState where
  logs : List LogEntry := []
  count : Nat := 0
  failed : Nat := 0
  skipped : Nat := 0
  fails : List (String × Nat) := []
  aborted : Bool := false
  abortMessage : Option String := none

/-- The store at process start: everything empty and zero. -/
def initState : ProgressState := {}

/-- `progress.fails[file]` lookup (`undefined` when the key is absent). -/
def failsGet (fails : List (String × Nat)) (file : String) : Option Nat :=
  (fails.find? (fun p => p.1 == file)).map (fun p => p.2)

/-- The catch branch's `if (!(file in fails)) fails[file] = 0; ++fails[file]`. -/
def failsBump (fails : List (String × Nat)) (file : String) : List (String × Nat) :=
  match fails.find? (fun p => p.1 == file) with
  | some _ => fails.map (fun p => if p.1 == file then (p.1, p.2 + 1) else p)
  | none => fails ++ [(file, 1)]

/-- `sum(failsByFile.values())`. -/
def sumFails (fails : List (String × Nat)) : Nat :=
  (fails.map (fun p => p.2)).sum

/-- The assertion object built by `new Expect(name, value, negate, verbose)`. -/
structure ExpectObj where
  name : String
  value : JSValue
  negate : Bool
  verbose : Verbose

/-- The `expect(name, value, verbose)` factory (after its arity check):
`new Expect(name, value, false, verbose)` with `verbose` defaulting to
`config.verbose`. -/
def expectFn (cfgVerbose : Verbose) (name : String) (value : JSValue)
    (verboseArg : Option Verbose := none) : ExpectObj :=
  ⟨name, value, false, verboseArg.getD cfgVerbose⟩

/-- The `not` getter: `new Expect(this.name, this.value, true)` — note it
reverts `verbose` to the ambient `config.verbose` default. -/
def ExpectObj.notGet (e : ExpectObj) (cfgVerbose : Verbose) : ExpectObj :=
  ⟨e.name, e.value, true, cfgVerbose⟩

/-- `Expect.expectation(expected)`: canonical rendering of a value for
messages.  (The RegExp branch is not modelled: no claim involves regexes.) -/
def Expect.expectation (expected : JSValue) : String :=
  match expected with
  | .undef => CYAN "undefined"
  | .arr _ => CYAN (jsonStringify expected)
  | .obj _ => CYAN (jsonStringify expected)
  | .null => CYAN (jsonStringify .null)
  | .str "" => CYAN "<empty>"
  | v => MAGENTA (jsToString v)

/-- `Expect.#log(expected)`: under Detailed verbosity append the satisfied
expectation to the store's logs (the only global effect of a passing
matcher). -/
def elog (e : ExpectObj) (expected : String) (logs : List LogEntry) : List LogEntry :=
  if e.verbose = Verbose.DETAILED then
    let message :=
      if e.negate then
        "  " ++ RED "✓" ++ " " ++ e.name ++ " " ++ RED "not" ++ " to " ++ expected
      else
        "  " ++ GREEN "✓" ++ " " ++ e.name ++ " to " ++ expected
    (addLog logs message).1
  else logs

/-- A matcher's result: the thrown `TestError`, or the updated logs together
with the value the call returns (`some` assertion object for chaining, `none`
for the bare `return;` path of single-argument `toHave`). -/
abbrev MRes := Except JsError (List LogEntry × Option ExpectObj)

/-- `Except.isOk` as a plain boolean. -/
def isOkE {ε α : Type _} : Except ε α → Bool
  | .ok _ => true
  | .error _ => false

/-- `Expect.toBe(expected)`: strict `===` comparison; throws only when the
comparison fails AND the assertion is not negated. -/
def ExpectObj.toBe (e : ExpectObj) (expected : JSValue) (logs : List LogEntry) : MRes :=
  if !strictEq e.value expected && !e.negate then
    Except.error ⟨"TestError",
      "Comparison failed: expected values to be strictly equal (===)\n\n" ++
        "  Expected: " ++ Expect.expectation expected ++ "\n" ++
        "  Received: " ++ Expect.expectation e.value,
      some e.value, some expected⟩
  else
    Except.ok (elog e ("be " ++ Expect.expectation expected) logs, some e)

/-- `Expect.toBeTruthy()`. -/
def ExpectObj.toBeTruthy (e : ExpectObj) (logs : List LogEntry) : MRes :=
  if !e.value.truthy && !e.negate then
    Except.error ⟨"TestError",
      "Truthiness check failed: expected value to be truthy\n\n" ++
        "  Received: " ++ Expect.expectation e.value ++ "\n\n" ++
        "  Truthy values: true, non-zero numbers, non-empty strings, objects, arrays\n" ++
        "  Falsy values: false, 0, \x27\x27, null, undefined, NaN",
      some e.value, some (.str "truthy value")⟩
  else
    Except.ok (elog e ("be " ++ CYAN "truthy") logs, some e)

/-- `Expect.toBeNumber()`: rejects values whose `typeof` is not `"number"`
and also `NaN` (`Number.isNaN` check). -/
def ExpectObj.toBeNumber (e : ExpectObj) (logs : List LogEntry) : MRes :=
  if (!(e.value.typeof == "number") || (match e.value with | .num .nan => true | _ => false)) && !e.negate then
    Except.error ⟨"TestError",
      "Type check failed: expected value to be a number\n\n" ++
        "  Expected type: number\n" ++
        "  Received type: " ++ e.value.typeof ++ "\n" ++
        "  Received value: " ++ Expect.expectation e.value,
      some e.value, some (.str "number")⟩
  else
    Except.ok (elog e ("be a " ++ CYAN "number") logs, some e)

/-- The condition of `toBeEmpty`, with JS left-to-right short-circuit
evaluation: `(Array.isArray(v) && v.length > 0) || (typeof v === "object" &&
Object.keys(v).length > 0) || v !== ""`.  `Object.keys(null)` throws a
`TypeError`. -/
def toBeEmptyCond (v : JSValue) : Except JsError Bool :=
  if (match v with | .arr xs => decide (xs.length > 0) | _ => false) then
    Except.ok true
  else if v.typeof == "object" then
    match v with
    | .null => Except.error ⟨"TypeError", "Cannot convert undefined or null to object", none, none⟩
    | .arr xs => if xs.length > 0 then Except.ok true else Except.ok (!(strictEq v (.str "")))
    | .obj fs => if fs.length > 0 then Except.ok true else Except.ok (!(strictEq v (.str "")))
    | _ => Except.ok (!(strictEq v (.str "")))
  else
    Except.ok (!(strictEq v (.str "")))

/-- `Expect.toBeEmpty()`. -/
def ExpectObj.toBeEmpty (e : ExpectObj) (logs : List LogEntry) : MRes :=
  match toBeEmptyCond e.value with
  | Except.error err => Except.error err
  | Except.ok c =>
    if c && !e.negate then
      Except.error ⟨"TestError",
        "Expected " ++ e.name ++ " to be empty.\n    Actual: " ++ Expect.expectation e.value,
        none, none⟩
    else
      Except.ok (elog e ("be " ++ CYAN "empty") logs, some e)

/-- The membership test inside `toHave`: `this.value.includes(i)` for arrays,
`i in this.value` otherwise (`in` throws a `TypeError` on primitives). -/
def hasItemE (v i : JSValue) : Except JsError Bool :=
  match v with
  | .arr xs => Except.ok (jsIncludes xs i)
  | .obj fs => Except.ok (fs.any (fun kv => kv.1 == toPropertyKey i))
  | _ => Except.error ⟨"TypeError",
      "Cannot use \x27in\x27 operator to search for \x27" ++ jsToString i ++ "\x27 in " ++ jsToString v,
      none, none⟩

/-- The `for (const i of that)` loop of `toHave` with an array argument:
throws at the first absent item, in argument order. -/
def toHaveLoop (e : ExpectObj) (emsg : String → String) : List JSValue → Except JsError Unit
  | [] => Except.ok ()
  | i :: rest =>
    match hasItemE e.value i with
    | Except.error err => Except.error err
    | Except.ok hasIt =>
      if !hasIt && !e.negate then
        Except.error ⟨"TestError",
          "Expected " ++ e.name ++ " to " ++ emsg (jsToString i) ++ ".\n    Actual: " ++
            Expect.expectation e.value,
          none, none⟩
      else
        toHaveLoop e emsg rest

/-- `Expect.toHave(that)`.  The guard in the source is
`!this.value || (this.value === undefined && this.value === null && ...)`;
the second disjunct is identically false (a value cannot be both `undefined`
and `null`), so the guard reduces to the truthiness check.  A single
(non-array) argument ends in a bare `return;` (no chaining); an array argument
is checked item by item, first absent item wins. -/
def ExpectObj.toHave (e : ExpectObj) (that : JSValue) (logs : List LogEntry) : MRes :=
  if !e.value.truthy then
    Except.error ⟨"TestError",
      "Expected " ++ e.name ++ " to be an array or object for \x27toHave\x27 assertion, but got " ++
        e.value.typeof ++ ".",
      none, none⟩
  else
    let emsg : String → String := fun s =>
      if e.value.isArrayV then "have element " ++ s else "have property " ++ s
    let lmsg : JSValue → String := fun x =>
      if e.value.isArrayV then "have element " ++ Expect.expectation x
      else "have property " ++ Expect.expectation x
    match that with
    | .arr items =>
      match toHaveLoop e emsg items with
      | Except.error err => Except.error err
      | Except.ok _ => Except.ok (elog e (lmsg that) logs, some e)
    | _ =>
      match hasItemE e.value that with
      | Except.error err => Except.error err
      | Except.ok hasThat =>
        if !hasThat && !e.negate then
          Except.error ⟨"TestError",
            "Expected " ++ e.name ++ " to " ++ emsg (jsToString that) ++ ".\n    Actual: " ++
              Expect.expectation e.value,
            none, none⟩
        else
          Except.ok (elog e (lmsg that) logs, none)

/-- The matcher invoked by one `expect(...)` assertion statement (the subset
of `Expect`'s matchers exercised by the claims). -/
inductive Matcher
  | toBe (expected : JSValue)
  | toBeTruthy
  | toBeNumber
  | toBeEmpty
  | toHave (that : JSValue)

/-- One assertion statement inside a test body:
`expect(name, value)[.not].matcher(arg)`. -/
structure Assertion where
  name : String
  value : JSValue
  negated : Bool
  matcher : Matcher

/-- Evaluate one assertion statement against the current logs. -/
def runMatcher (cfg : Verbose) (a : Assertion) (logs : List LogEntry) : MRes :=
  let e0 := expectFn cfg a.name a.value none
  let e := if a.negated then e0.notGet cfg else e0
  match a.matcher with
  | .toBe x => e.toBe x logs
  | .toBeTruthy => e.toBeTruthy logs
  | .toBeNumber => e.toBeNumber logs
  | .toBeEmpty => e.toBeEmpty logs
  | .toHave x => e.toHave x logs

/-- One statement of a registered test body: an assertion, a call to the
external `abort(message)` entry point, or an arbitrary thrown exception.
`abortCall` is modelled from the spec: `abort` is declared in `index.d.ts`
but implemented outside the sources; per the spec it sets the store's abort
flag (and message) and the test continues. -/
inductive TestAction
  | assert (a : Assertion)
  | abortCall (msg : String)
  | throwRaw (name msg : String)

/-- Whether the statement is an abort signal. -/
def TestAction.isAbortCall : TestAction → Bool
  | .abortCall _ => true
  | _ => false

/-- Execute a test body (a sequence of statements) against the store.
Execution stops at the first thrown exception; effects before the throw
persist (the store has no rollback).  Returns the final store and the
uncaught exception, if any. -/
def runBody (cfg : Verbose) : ProgressState → List TestAction → ProgressState × Option JsError
  | p, [] => (p, none)
  | p, TestAction.assert a :: rest =>
    match runMatcher cfg a p.logs with
    | Except.ok (logs, _) => runBody cfg { p with logs := logs } rest
    | Except.error e => (p, some e)
  | p, TestAction.abortCall m :: rest =>
    runBody cfg { p with aborted := true, abortMessage := some m } rest
  | p, TestAction.throwRaw n m :: _ => (p, some ⟨n, m, none, none⟩)

/-- Whether a single statement throws (matcher outcomes do not depend on the
store, so this is a function of the statement alone). -/
def TestAction.throws (cfg : Verbose) : TestAction → Bool
  | .assert a => !isOkE (runMatcher cfg a [])
  | .abortCall _ => false
  | .throwRaw _ _ => true

/-- Whether a body throws somewhere (equivalently: whether `runBody` ends in
an uncaught exception, see `runBody_err`). -/
def bodyThrows (cfg : Verbose) (body : List TestAction) : Bool :=
  body.any (TestAction.throws cfg)

/-- A registered test: title plus deferred body (`test(title, fn)`). -/
structure Test where
  title : String
  body : List TestAction

/-- The tests of one source file, in registration order, keyed by the file. -/
abbrev TestFile := String × List Test

/-- The trailing `if (config.verbose === DETAILED) progress.addLog("")` of
the registered closure; it runs after the try/catch, so only when no error
escaped. -/
def detailedSep (cfg : Verbose) : ProgressState × Option JsError → ProgressState × Option JsError
  | (p, none) =>
    if cfg = Verbose.DETAILED then ({ p with logs := (addLog p.logs "").1 }, none) else (p, none)
  | r => r

/-- The closure that `test(title, fn)` pushes into `progress.tests[file]`
(`lib/test.js` lines 17–49): bump `count`; unless Summary verbosity, open the
pending "Testing …" entry (index −1 otherwise); run the body; on success
rewrite the pending entry to the success line (unless Summary verbosity); on a
caught exception bump `failed` and `fails[file]` and rewrite the pending entry
to the failure line — note this `setLog` is NOT guarded by the verbosity
check, so with Summary verbosity it receives index −1 and itself throws.
`tms` abstracts the elapsed-time text. -/
def runTest (cfg : Verbose) (tms : String) (file : String) (t : Test)
    (p : ProgressState) : ProgressState × Option JsError :=
  let p1 : ProgressState := { p with count := p.count + 1 }
  let pi : ProgressState × Int :=
    if cfg ≠ Verbose.SUMMARY then
      let r := addLog p1.logs (YELLOW "=>" ++ " Testing " ++ t.title)
      ({ p1 with logs := r.1 }, (r.2 : Int))
    else
      (p1, -1)
  let p2 := pi.1
  let index := pi.2
  match runBody cfg p2 t.body with
  | (p3, none) =>
    if cfg ≠ Verbose.SUMMARY then
      match setLog p3.logs index
          (GREEN "✓" ++ " " ++ t.title ++ " " ++ BLUE ("(" ++ tms ++ " ms)")) with
      | Except.ok logs2 => detailedSep cfg ({ p3 with logs := logs2 }, none)
      | Except.error e => (p3, some e)
    else
      detailedSep cfg (p3, none)
  | (p3, some err) =>
    let p4 : ProgressState :=
      { p3 with failed := p3.failed + 1, fails := failsBump p3.fails file }
    match setLog p4.logs index
        (RED "✗" ++ " " ++ RED t.title ++ "\n    " ++ RED ("✗ " ++ err.message))
        LogType.error with
    | Except.ok logs2 => detailedSep cfg ({ p4 with logs := logs2 }, none)
    | Except.error e => (p4, some e)

/-- The inner loop of `summary` over one file's tests: check the abort flag
before each test, invoke the closure, then rewrite the file's title entry to
the pass/fail line.  An exception escaping a closure propagates (there is no
try/catch in `summary`). -/
def runFileTests (cfg : Verbose) (tms file : String) (titleIndex : Int) :
    List Test → ProgressState → ProgressState × Option JsError
  | [], p => (p, none)
  | t :: rest, p =>
    if p.aborted then (p, none)
    else
      match runTest cfg tms file t p with
      | (p1, some e) => (p1, some e)
      | (p1, none) =>
        let haveFailed : Bool :=
          match failsGet p1.fails file with
          | some n => decide (0 < n)
          | none => false
        let msg :=
          (if haveFailed then RED "✗" else GREEN "✓") ++ " " ++ CYAN file ++ " " ++
            MAGENTA ("(" ++ tms ++ ")") ++ " " ++
            (if cfg = Verbose.SUMMARY then "" else ":")
        match setLog p1.logs titleIndex msg (if haveFailed then LogType.error else LogType.log) with
        | Except.ok logs2 => runFileTests cfg tms file titleIndex rest { p1 with logs := logs2 }
        | Except.error e => (p1, some e)

/-- The outer loop of `summary` over the files: a blank title entry between
files (only when verbosity is neither Detailed nor Summary), the file's title
entry (title-flagged unless Summary verbosity), the inner loop, and the abort
check after it. -/
def runFiles (cfg : Verbose) (tms : String) :
    List TestFile → Bool → ProgressState → ProgressState × Option JsError
  | [], _, p => (p, none)
  | (file, tests) :: rest, isFirst, p =>
    let p :=
      if !isFirst && cfg ≠ Verbose.DETAILED && cfg ≠ Verbose.SUMMARY then
        { p with logs := (addLog p.logs "" LogType.log true).1 }
      else p
    let r := addLog p.logs (CYAN file ++ ":") LogType.log (cfg ≠ Verbose.SUMMARY)
    let p := { p with logs := r.1 }
    match runFileTests cfg tms file (r.2 : Int) tests p with
    | (p1, some e) => (p1, some e)
    | (p1, none) =>
      if p1.aborted then (p1, none) else runFiles cfg tms rest false p1

/-- The test-executing part of the `summary(loader)` entry point: drain all
registered files starting from the given store. -/
def summaryRun (cfg : Verbose) (tms : String) (files : List TestFile)
    (p : ProgressState) : ProgressState × Option JsError :=
  runFiles cfg tms files true p

/-- The aggregate report line printed after the logs: a failure line when any
test failed, otherwise the aborted line when the abort flag is set, otherwise
the all-passed line.  (Note the failure line takes precedence over the
aborted line.) -/
def aggregateLine (p : ProgressState) : String :=
  if 0 < p.failed then
    "\n" ++ WHITE ">" ++ " " ++ RED (toString p.failed ++ " out of " ++ toString p.count ++ " tests failed!")
  else if p.aborted then
    "\n" ++ WHITE ">" ++ " " ++ YELLOW ("Tests aborted: " ++ p.abortMessage.getD "Test execution was stopped")
  else
    "\n" ++ WHITE ">" ++ " " ++ GREEN ("All " ++ toString p.count ++ " tests passed!")

/-- The status `summary` passes to `process.exit`: 2 when aborted, else 1
when any test failed, else 0. -/
def exitCode (p : ProgressState) : Nat :=
  if p.aborted then 2 else if 0 < p.failed then 1 else 0

/-- The process exit status of a run started from store `p`: `some code` when
`summary` reaches its `process.exit` call, `none` when an exception escaped
the runner first (in which case the generated bootstrap's catch-all reports
the error instead). -/
def summaryExit (cfg : Verbose) (tms : String) (files : List TestFile)
    (p : ProgressState) : Option Nat :=
  match summaryRun cfg tms files p with
  | (p1, none) => some (exitCode p1)
  | (_, some _) => none

/-- Boolean substring test used to state claims about messages. -/
def charsPref : List Char → List Char → Bool
  | [], _ => true
  | _ :: _, [] => false
  | a :: as, b :: bs => a == b && charsPref as bs

/-- Helper for `strContains`. -/
def charsInf (pat : List Char) : List Char → Bool
  | [] => charsPref pat []
  | s :: rest => charsPref pat (s :: rest) || charsInf pat rest

/-- Whether `pat` occurs as a substring of `s`. -/
def strContains (s pat : String) : Bool :=
  charsInf pat.data s.data

/-! ### Definitions used to state the claims -/

/-- A string of `n` dashes. -/
def dashesOf (n : Nat) : String := String.mk (List.replicate n '-')

/-- The spec's log-sequence invariant, as stated: every title-flagged entry is
immediately followed by an entry whose text is dashes of the same length as
the title's message. -/
def titleSepClaim (logs : List LogEntry) : Bool :=
  (List.range logs.length).all fun i =>
    !(logs.getD i ⟨LogType.log, "", false⟩).title ||
      ((logs.getD (i + 1) ⟨LogType.log, "", false⟩).message ==
        dashesOf (logs.getD i ⟨LogType.log, "", false⟩).message.length)

/-- Membership as `toHave` tests it, for array/object targets (the pure part
of `hasItemE`). -/
def hasItem (v i : JSValue) : Bool :=
  match v with
  | .arr xs => jsIncludes xs i
  | .obj fs => fs.any (fun kv => kv.1 == toPropertyKey i)
  | _ => false

/-- The first item of `items` (in order) absent from `v`, per the claim's
"first-missing-wins" reading. -/
def firstAbsent (v : JSValue) (items : List JSValue) : Option JSValue :=
  items.find? (fun i => !hasItem v i)

/-- The claim's characterization of `toBeNumber`: a value of type number that
is not NaN. -/
def JSValue.isNonNaNNumber : JSValue → Bool
  | .num (.int _) => true
  | _ => false

/-- How many of the given tests' bodies throw. -/
def thrownCount (cfg : Verbose) (tests : List Test) : Nat :=
  (tests.filter (fun t => bodyThrows cfg t.body)).length

/-- Total number of registered tests across the files. -/
def totalTests (files : List TestFile) : Nat :=
  (files.map (fun ft => ft.2.length)).sum

/-- Total number of throwing test bodies across the files. -/
def totalThrown (cfg : Verbose) (files : List TestFile) : Nat :=
  (files.map (fun ft => thrownCount cfg ft.2)).sum

/-- No test body anywhere signals the external abort. -/
def noAbortCalls (files : List TestFile) : Bool :=
  files.all (fun ft => ft.2.all (fun t => t.body.all (fun a => !a.isAbortCall)))

/-- The keys of the per-file failure map are distinct — true of every store
the engine builds, since `failsBump` only appends a key it did not find. -/
def FailsOk (fails : List (String × Nat)) : Prop :=
  (fails.map Prod.fst).Nodup

/-- Scenario for claim C2: one file, a throwing test followed by a passing
one, run under Summary verbosity. -/
def c2files : List TestFile :=
  [("a", [⟨"t1", [TestAction.throwRaw "Error" "boom"]⟩, ⟨"t2", []⟩])]

/-- Scenario for claim C3: a failing test, then a test that signals abort,
then a test that should never run. -/
def c3files : List TestFile :=
  [("a", [⟨"t1", [TestAction.throwRaw "Error" "boom"]⟩,
          ⟨"t2", [TestAction.abortCall "stop now"]⟩,
          ⟨"t3", []⟩])]

/-- Scenario for claim C4's witness: three tests in two files, one of which
throws. -/
def c4files : List TestFile :=
  [("a", [⟨"t1", []⟩, ⟨"t2", [TestAction.throwRaw "Error" "boom"]⟩]),
   ("b", [⟨"t3", []⟩])]

/-- All-passing run for claim C5's witness. -/
def c5passFiles : List TestFile := [("a", [⟨"t1", []⟩])]

/-- Failing run for claim C5's witness. -/
def c5failFiles : List TestFile := [("a", [⟨"t1", [TestAction.throwRaw "Error" "boom"]⟩])]

/-- Aborted run for claim C5's witness. -/
def c5abortFiles : List TestFile := [("a", [⟨"t1", [TestAction.abortCall "halt"]⟩, ⟨"t2", []⟩])]

/-- Scenario B of the spec (claim C9): `test('t2', () => expect('x', 1).toBe(2))`
registered in file `"a"`. -/
def c9files : List TestFile :=
  [("a", [⟨"t2", [TestAction.assert
    ⟨"x", JSValue.num (JSNum.int 1), false, Matcher.toBe (JSValue.num (JSNum.int 2))⟩]⟩])]

/-- The per-test log entry of scenario B after the run (index 2: the file
title entry and its separator occupy indices 0 and 1). -/
def c9entry : LogEntry :=
  (summaryRun Verbose.NONE "" c9files initState).1.logs.getD 2 ⟨LogType.log, "", false⟩

/-! ### Helper lemmas -/

theorem getD_set_self {α : Type _} (l : List α) (i : Nat) (e d : α) (h : i < l.length) :
    (l.set i e).getD i d = e := by
  rw [List.getD_eq_getElem _ _ (by simpa using h)]
  exact List.getElem_set_self _

theorem addLog_title_eq (logs : List LogEntry) (msg : String) (ty : LogType) :
    addLog logs msg ty true =
      (logs ++ [⟨ty, msg, true⟩, ⟨LogType.log, sepOf msg, true⟩], logs.length) := by
  simp [addLog]

theorem setLog_nat_eq (logs : List LogEntry) (i : Nat) (msg : String) (ty : LogType)
    (h : i < logs.length) :
    setLog logs (i : Int) msg ty =
      (let old := logs.getD i ⟨LogType.log, "", false⟩
       let logs1 := logs.set i ⟨ty, msg, old.title⟩
       if old.title then
         Except.ok (listAssign logs1 (i + 1) ⟨LogType.log, sepOf msg, true⟩)
       else
         Except.ok logs1) := by
  rw [setLog, if_pos ⟨Int.natCast_nonneg i, by exact_mod_cast h⟩]
  simp

theorem elog_append (e : ExpectObj) (s : String) (logs : List LogEntry) :
    ∃ t, elog e s logs = logs ++ t := by
  unfold elog
  split
  · exact ⟨[_], rfl⟩
  · exact ⟨[], by simp⟩

theorem toBe_spec (e : ExpectObj) (x : JSValue) (logs logs' : List LogEntry) :
    (∃ err, e.toBe x logs = Except.error err ∧ isOkE (e.toBe x logs') = false) ∨
    (∃ t r, e.toBe x logs = Except.ok (logs ++ t, r) ∧ isOkE (e.toBe x logs') = true) := by
  unfold ExpectObj.toBe
  cases hc : (!strictEq e.value x && !e.negate)
  · right
    obtain ⟨t, ht⟩ := elog_append e ("be " ++ Expect.expectation x) logs
    exact ⟨t, some e, by simp [hc, ht], by simp [hc, isOkE]⟩
  · left
    refine ⟨_, if_pos rfl, ?_⟩
    simp [hc, isOkE]

theorem toBeTruthy_spec (e : ExpectObj) (logs logs' : List LogEntry) :
    (∃ err, e.toBeTruthy logs = Except.error err ∧ isOkE (e.toBeTruthy logs') = false) ∨
    (∃ t r, e.toBeTruthy logs = Except.ok (logs ++ t, r) ∧ isOkE (e.toBeTruthy logs') = true) := by
  unfold ExpectObj.toBeTruthy
  cases hc : (!e.value.truthy && !e.negate)
  · right
    obtain ⟨t, ht⟩ := elog_append e ("be " ++ CYAN "truthy") logs
    exact ⟨t, some e, by simp [hc, ht], by simp [hc, isOkE]⟩
  · left
    refine ⟨_, if_pos rfl, ?_⟩
    simp [hc, isOkE]

theorem toBeNumber_spec (e : ExpectObj) (logs logs' : List LogEntry) :
    (∃ err, e.toBeNumber logs = Except.error err ∧ isOkE (e.toBeNumber logs') = false) ∨
    (∃ t r, e.toBeNumber logs = Except.ok (logs ++ t, r) ∧ isOkE (e.toBeNumber logs') = true) := by
  unfold ExpectObj.toBeNumber
  cases hc : ((!(e.value.typeof == "number") ||
      (match e.value with | .num .nan => true | _ => false)) && !e.negate)
  · right
    obtain ⟨t, ht⟩ := elog_append e ("be a " ++ CYAN "number") logs
    exact ⟨t, some e, by simp [hc, ht], by simp [hc, isOkE]⟩
  · left
    refine ⟨_, if_pos rfl, ?_⟩
    simp [hc, isOkE]

theorem toBeEmpty_spec (e : ExpectObj) (logs logs' : List LogEntry) :
    (∃ err, e.toBeEmpty logs = Except.error err ∧ isOkE (e.toBeEmpty logs') = false) ∨
    (∃ t r, e.toBeEmpty logs = Except.ok (logs ++ t, r) ∧ isOkE (e.toBeEmpty logs') = true) := by
  unfold ExpectObj.toBeEmpty
  cases hcond : toBeEmptyCond e.value with
  | error err => left; exact ⟨err, by simp [hcond], by simp [hcond, isOkE]⟩
  | ok c =>
    dsimp only
    cases hc : (c && !e.negate)
    · right
      obtain ⟨t, ht⟩ := elog_append e ("be " ++ CYAN "empty") logs
      exact ⟨t, some e, by simp [ht], by simp [isOkE]⟩
    · left
      refine ⟨_, if_pos rfl, ?_⟩
      simp [isOkE]

theorem toHave_spec (e : ExpectObj) (that : JSValue) (logs logs' : List LogEntry) :
    (∃ err, e.toHave that logs = Except.error err ∧ isOkE (e.toHave that logs') = false) ∨
    (∃ t r, e.toHave that logs = Except.ok (logs ++ t, r) ∧ isOkE (e.toHave that logs') = true) := by
  unfold ExpectObj.toHave
  cases htr : e.value.truthy
  · left
    refine ⟨_, if_pos rfl, ?_⟩
    simp [isOkE]
  · dsimp only
    cases that with
    | arr items =>
      dsimp only
      cases hloop : toHaveLoop e
          (fun s => if e.value.isArrayV = true then "have element " ++ s
            else "have property " ++ s) items with
      | error err => left; exact ⟨err, by simp [hloop], by simp [hloop, isOkE]⟩
      | ok u =>
        right
        obtain ⟨t, ht⟩ := elog_append e
          (if e.value.isArrayV = true then
            "have element " ++ Expect.expectation (JSValue.arr items)
           else "have property " ++ Expect.expectation (JSValue.arr items)) logs
        exact ⟨t, some e, by simp [hloop, ht], by simp [hloop, isOkE]⟩
    | undef =>
      dsimp only
      cases hhas : hasItemE e.value JSValue.undef with
      | error err => left; exact ⟨err, by simp [hhas], by simp [hhas, isOkE]⟩
      | ok hasThat =>
        dsimp only
        cases hc : (!hasThat && !e.negate)
        · right
          obtain ⟨t, ht⟩ := elog_append e
            (if e.value.isArrayV = true then "have element " ++ Expect.expectation JSValue.undef
             else "have property " ++ Expect.expectation JSValue.undef) logs
          exact ⟨t, none, by simp [ht], by simp [isOkE]⟩
        · left
          refine ⟨⟨"TestError",
              ("Expected " ++ e.name ++ " to " ++
                if e.value.isArrayV = true then "have element " ++ jsToString JSValue.undef
                else "have property " ++ jsToString JSValue.undef) ++
                ".\n    Actual: " ++ Expect.expectation e.value, none, none⟩, ?_, ?_⟩
          · rw [if_neg (by simp), if_pos rfl]
          · simp [isOkE]
    | null =>
      dsimp only
      cases hhas : hasItemE e.value JSValue.null with
      | error err => left; exact ⟨err, by simp [hhas], by simp [hhas, isOkE]⟩
      | ok hasThat =>
        dsimp only
        cases hc : (!hasThat && !e.negate)
        · right
          obtain ⟨t, ht⟩ := elog_append e
            (if e.value.isArrayV = true then "have element " ++ Expect.expectation JSValue.null
             else "have property " ++ Expect.expectation JSValue.null) logs
          exact ⟨t, none, by simp [ht], by simp [isOkE]⟩
        · left
          refine ⟨⟨"TestError",
              ("Expected " ++ e.name ++ " to " ++
                if e.value.isArrayV = true then "have element " ++ jsToString JSValue.null
                else "have property " ++ jsToString JSValue.null) ++
                ".\n    Actual: " ++ Expect.expectation e.value, none, none⟩, ?_, ?_⟩
          · rw [if_neg (by simp), if_pos rfl]
          · simp [isOkE]
    | bool b =>
      dsimp only
      cases hhas : hasItemE e.value (JSValue.bool b) with
      | error err => left; exact ⟨err, by simp [hhas], by simp [hhas, isOkE]⟩
      | ok hasThat =>
        dsimp only
        cases hc : (!hasThat && !e.negate)
        · right
          obtain ⟨t, ht⟩ := elog_append e
            (if e.value.isArrayV = true then "have element " ++ Expect.expectation (JSValue.bool b)
             else "have property " ++ Expect.expectation (JSValue.bool b)) logs
          exact ⟨t, none, by simp [ht], by simp [isOkE]⟩
        · left
          refine ⟨⟨"TestError",
              ("Expected " ++ e.name ++ " to " ++
                if e.value.isArrayV = true then "have element " ++ jsToString (JSValue.bool b)
                else "have property " ++ jsToString (JSValue.bool b)) ++
                ".\n    Actual: " ++ Expect.expectation e.value, none, none⟩, ?_, ?_⟩
          · rw [if_neg (by simp), if_pos rfl]
          · simp [isOkE]
    | num n =>
      dsimp only
      cases hhas : hasItemE e.value (JSValue.num n) with
      | error err => left; exact ⟨err, by simp [hhas], by simp [hhas, isOkE]⟩
      | ok hasThat =>
        dsimp only
        cases hc : (!hasThat && !e.negate)
        · right
          obtain ⟨t, ht⟩ := elog_append e
            (if e.value.isArrayV = true then "have element " ++ Expect.expectation (JSValue.num n)
             else "have property " ++ Expect.expectation (JSValue.num n)) logs
          exact ⟨t, none, by simp [ht], by simp [isOkE]⟩
        · left
          refine ⟨⟨"TestError",
              ("Expected " ++ e.name ++ " to " ++
                if e.value.isArrayV = true then "have element " ++ jsToString (JSValue.num n)
                else "have property " ++ jsToString (JSValue.num n)) ++
                ".\n    Actual: " ++ Expect.expectation e.value, none, none⟩, ?_, ?_⟩
          · rw [if_neg (by simp), if_pos rfl]
          · simp [isOkE]
    | str sv =>
      dsimp only
      cases hhas : hasItemE e.value (JSValue.str sv) with
      | error err => left; exact ⟨err, by simp [hhas], by simp [hhas, isOkE]⟩
      | ok hasThat =>
        dsimp only
        cases hc : (!hasThat && !e.negate)
        · right
          obtain ⟨t, ht⟩ := elog_append e
            (if e.value.isArrayV = true then "have element " ++ Expect.expectation (JSValue.str sv)
             else "have property " ++ Expect.expectation (JSValue.str sv)) logs
          exact ⟨t, none, by simp [ht], by simp [isOkE]⟩
        · left
          refine ⟨⟨"TestError",
              ("Expected " ++ e.name ++ " to " ++
                if e.value.isArrayV = true then "have element " ++ jsToString (JSValue.str sv)
                else "have property " ++ jsToString (JSValue.str sv)) ++
                ".\n    Actual: " ++ Expect.expectation e.value, none, none⟩, ?_, ?_⟩
          · rw [if_neg (by simp), if_pos rfl]
          · simp [isOkE]
    | obj fs =>
      dsimp only
      cases hhas : hasItemE e.value (JSValue.obj fs) with
      | error err => left; exact ⟨err, by simp [hhas], by simp [hhas, isOkE]⟩
      | ok hasThat =>
        dsimp only
        cases hc : (!hasThat && !e.negate)
        · right
          obtain ⟨t, ht⟩ := elog_append e
            (if e.value.isArrayV = true then "have element " ++ Expect.expectation (JSValue.obj fs)
             else "have property " ++ Expect.expectation (JSValue.obj fs)) logs
          exact ⟨t, none, by simp [ht], by simp [isOkE]⟩
        · left
          refine ⟨⟨"TestError",
              ("Expected " ++ e.name ++ " to " ++
                if e.value.isArrayV = true then "have element " ++ jsToString (JSValue.obj fs)
                else "have property " ++ jsToString (JSValue.obj fs)) ++
                ".\n    Actual: " ++ Expect.expectation e.value, none, none⟩, ?_, ?_⟩
          · rw [if_neg (by simp), if_pos rfl]
          · simp [isOkE]

theorem runMatcher_spec (cfg : Verbose) (a : Assertion) (logs logs' : List LogEntry) :
    (∃ err, runMatcher cfg a logs = Except.error err ∧
      isOkE (runMatcher cfg a logs') = false) ∨
    (∃ t r, runMatcher cfg a logs = Except.ok (logs ++ t, r) ∧
      isOkE (runMatcher cfg a logs') = true) := by
  obtain ⟨n, v, neg, m⟩ := a
  cases m with
  | toBe x => exact toBe_spec _ x logs logs'
  | toBeTruthy => exact toBeTruthy_spec _ logs logs'
  | toBeNumber => exact toBeNumber_spec _ logs logs'
  | toBeEmpty => exact toBeEmpty_spec _ logs logs'
  | toHave x => exact toHave_spec _ x logs logs'

theorem runBody_spec (cfg : Verbose) (b : List TestAction) : ∀ p : ProgressState,
    ((runBody cfg p b).1.count = p.count ∧
     (runBody cfg p b).1.failed = p.failed ∧
     (runBody cfg p b).1.fails = p.fails ∧
     (runBody cfg p b).1.skipped = p.skipped) ∧
    (∃ t, (runBody cfg p b).1.logs = p.logs ++ t) ∧
    ((runBody cfg p b).2.isSome = bodyThrows cfg b) ∧
    (b.all (fun a => !a.isAbortCall) = true → (runBody cfg p b).1.aborted = p.aborted) := by
  induction b with
  | nil =>
    intro p
    have hstep : runBody cfg p [] = (p, none) := by simp only [runBody]
    rw [hstep]
    exact ⟨⟨rfl, rfl, rfl, rfl⟩, ⟨[], by simp⟩, by simp [bodyThrows], fun _ => rfl⟩
  | cons act rest ih =>
    intro p
    cases act with
    | assert a =>
      rcases runMatcher_spec cfg a p.logs [] with ⟨err, hE, hOk⟩ | ⟨t, r, hO, hOk⟩
      · have hstep : runBody cfg p (TestAction.assert a :: rest) = (p, some err) := by
          simp only [runBody, hE]
        rw [hstep]
        refine ⟨⟨rfl, rfl, rfl, rfl⟩, ⟨[], by simp⟩, ?_, fun _ => rfl⟩
        simp [bodyThrows, TestAction.throws, hOk]
      · have hstep : runBody cfg p (TestAction.assert a :: rest) =
            runBody cfg { p with logs := p.logs ++ t } rest := by
          simp only [runBody, hO]
        rw [hstep]
        obtain ⟨⟨hc, hf, hfl, hs⟩, ⟨t2, hlg⟩, herr, habort⟩ := ih { p with logs := p.logs ++ t }
        refine ⟨⟨hc, hf, hfl, hs⟩, ⟨t ++ t2, by rw [hlg]; simp⟩, ?_, ?_⟩
        · rw [herr]
          simp [bodyThrows, TestAction.throws, hOk]
        · intro hall
          simp only [List.all_cons, Bool.and_eq_true] at hall
          exact habort (by simp [hall.2])
    | abortCall m =>
      have hstep : runBody cfg p (TestAction.abortCall m :: rest) =
          runBody cfg { p with aborted := true, abortMessage := some m } rest := by
        simp only [runBody]
      rw [hstep]
      obtain ⟨hfields, hlg, herr, _⟩ := ih { p with aborted := true, abortMessage := some m }
      refine ⟨hfields, hlg, ?_, ?_⟩
      · rw [herr]
        simp [bodyThrows, TestAction.throws]
      · intro hall
        simp [TestAction.isAbortCall] at hall
    | throwRaw nm msg =>
      have hstep : runBody cfg p (TestAction.throwRaw nm msg :: rest) =
          (p, some ⟨nm, msg, none, none⟩) := by
        simp only [runBody]
      rw [hstep]
      exact ⟨⟨rfl, rfl, rfl, rfl⟩, ⟨[], by simp⟩,
        by simp [bodyThrows, TestAction.throws], fun _ => rfl⟩

theorem runBody_spec2 (cfg : Verbose) (b : List TestAction) (p q : ProgressState)
    (e : Option JsError) (h : runBody cfg p b = (q, e)) :
    (q.count = p.count ∧ q.failed = p.failed ∧ q.fails = p.fails ∧ q.skipped = p.skipped) ∧
    (∃ t, q.logs = p.logs ++ t) ∧
    (e.isSome = bodyThrows cfg b) ∧
    (b.all (fun a => !a.isAbortCall) = true → q.aborted = p.aborted) := by
  have hs := runBody_spec cfg b p
  rw [h] at hs
  exact hs

theorem setLog_ok_nat (logs : List LogEntry) (i : Nat) (msg : String) (ty : LogType)
    (h : i < logs.length) :
    ∃ logs2, setLog logs (i : Int) msg ty = Except.ok logs2 ∧ logs.length ≤ logs2.length := by
  rw [setLog_nat_eq logs i msg ty h]
  dsimp only
  split
  · refine ⟨_, rfl, ?_⟩
    unfold listAssign
    split
    · simp
    · simp
  · exact ⟨_, rfl, by simp⟩

theorem detailedSep_spec (cfg : Verbose) (p q : ProgressState) (e : Option JsError)
    (h : detailedSep cfg (p, none) = (q, e)) :
    e = none ∧ q.count = p.count ∧ q.failed = p.failed ∧ q.fails = p.fails ∧
      q.aborted = p.aborted ∧ q.skipped = p.skipped ∧ p.logs.length ≤ q.logs.length := by
  unfold detailedSep at h
  dsimp only at h
  by_cases hd : cfg = Verbose.DETAILED
  · rw [if_pos hd] at h
    have h1 := congrArg Prod.fst h
    have h2 := congrArg Prod.snd h
    dsimp only at h1 h2
    subst h1
    exact ⟨h2.symm, rfl, rfl, rfl, rfl, rfl, by simp [addLog]⟩
  · rw [if_neg hd] at h
    have h1 := congrArg Prod.fst h
    have h2 := congrArg Prod.snd h
    dsimp only at h1 h2
    subst h1
    exact ⟨h2.symm, rfl, rfl, rfl, rfl, rfl, Nat.le_refl _⟩

theorem failsBump_fst (fails : List (String × Nat)) (f : String) :
    (failsBump fails f).map Prod.fst = fails.map Prod.fst ∨
    (failsBump fails f).map Prod.fst = fails.map Prod.fst ++ [f] := by
  unfold failsBump
  cases hfind : fails.find? (fun p => p.1 == f) with
  | some q =>
    left
    dsimp only
    rw [List.map_map]
    apply List.map_congr_left
    intro x _
    by_cases hx : x.1 = f <;> simp [hx]
  | none =>
    right
    simp

theorem bump_map_sum (f : String) :
    ∀ l : List (String × Nat), (l.map Prod.fst).Nodup →
      (∃ q ∈ l, q.1 = f) →
      ((l.map (fun p => if p.1 == f then (p.1, p.2 + 1) else p)).map (fun p => p.2)).sum =
        (l.map (fun p => p.2)).sum + 1 := by
  intro l
  induction l with
  | nil => intro _ hex; simp at hex
  | cons x rest ih =>
    intro hnd hex
    by_cases hx : x.1 = f
    · have hx1 : x.1 ∉ rest.map Prod.fst := by
        simp only [List.map_cons, List.nodup_cons] at hnd
        exact hnd.1
      have hnot : ∀ y ∈ rest, y.1 ≠ f := by
        intro y hy hyf
        exact hx1 (by rw [hx, ← hyf]; exact List.mem_map_of_mem Prod.fst hy)
      have hmap : rest.map (fun p => if p.1 == f then (p.1, p.2 + 1) else p) = rest :=
        (List.map_congr_left (fun y hy => by simp [hnot y hy])).trans (List.map_id rest)
      have hhead : (if x.1 == f then (x.1, x.2 + 1) else x) = (x.1, x.2 + 1) := by simp [hx]
      simp only [List.map_cons, List.sum_cons, hmap, hhead]
      omega
    · have hrest : (rest.map Prod.fst).Nodup := by
        simp only [List.map_cons, List.nodup_cons] at hnd
        exact hnd.2
      have hex2 : ∃ q ∈ rest, q.1 = f := by
        rcases hex with ⟨q, hq, hqf⟩
        rcases List.mem_cons.mp hq with rfl | hq2
        · exact absurd hqf hx
        · exact ⟨q, hq2, hqf⟩
      have hih := ih hrest hex2
      have hhead : (if x.1 == f then (x.1, x.2 + 1) else x) = x := by simp [hx]
      simp only [List.map_cons, List.sum_cons, hhead, hih]
      omega

theorem failsBump_sum (fails : List (String × Nat)) (f : String) (h : FailsOk fails) :
    sumFails (failsBump fails f) = sumFails fails + 1 := by
  unfold failsBump
  cases hfind : fails.find? (fun p => p.1 == f) with
  | none => simp [sumFails]
  | some q =>
    have hq1 := List.find?_some hfind
    have hq2 : q ∈ fails := List.mem_of_find?_eq_some hfind
    dsimp only
    unfold sumFails
    exact bump_map_sum f fails h ⟨q, hq2, by simpa using hq1⟩

theorem failsBump_keys (fails : List (String × Nat)) (f : String) (h : FailsOk fails) :
    FailsOk (failsBump fails f) := by
  unfold FailsOk failsBump
  cases hfind : fails.find? (fun p => p.1 == f) with
  | some q =>
    dsimp only
    have hmapfst : (fails.map (fun p => if p.1 == f then (p.1, p.2 + 1) else p)).map Prod.fst =
        fails.map Prod.fst := by
      rw [List.map_map]
      apply List.map_congr_left
      intro x _
      by_cases hx : x.1 = f <;> simp [hx]
    rw [hmapfst]
    exact h
  | none =>
    dsimp only
    have hnotin : f ∉ fails.map Prod.fst := by
      intro hmem
      rcases List.mem_map.mp hmem with ⟨x, hx, hxf⟩
      have := List.find?_eq_none.mp hfind x hx
      simp [hxf] at this
    simp only [List.map_append, List.map_cons, List.map_nil]
    rw [List.nodup_append]
    refine ⟨h, List.nodup_singleton f, ?_⟩
    intro a ha hb
    simp only [List.mem_singleton] at hb
    exact hnotin (hb ▸ ha)

theorem runTest_spec (cfg : Verbose) (tms file : String) (t : Test) (p : ProgressState)
    (hcfg : cfg ≠ Verbose.SUMMARY) (hfo : FailsOk p.fails) :
    ∃ p2, runTest cfg tms file t p = (p2, none) ∧
      p2.count = p.count + 1 ∧
      p2.failed = p.failed + (if bodyThrows cfg t.body then 1 else 0) ∧
      sumFails p2.fails = sumFails p.fails + (if bodyThrows cfg t.body then 1 else 0) ∧
      FailsOk p2.fails ∧
      p.logs.length ≤ p2.logs.length ∧
      (t.body.all (fun a => !a.isAbortCall) = true → p2.aborted = p.aborted) ∧
      p2.skipped = p.skipped := by
  simp only [runTest]
  rw [if_pos hcfg]
  dsimp only
  split
  next p3 heq =>
    obtain ⟨⟨hc, hf, hfl, hsk⟩, ⟨tl, hlg⟩, herr, hab⟩ := runBody_spec2 cfg t.body _ _ _ heq
    have hbt : bodyThrows cfg t.body = false := by simpa using herr.symm
    have hlen3 : p.logs.length + 1 ≤ p3.logs.length := by
      rw [hlg]
      simp [addLog]
    rw [if_pos hcfg]
    have hidx : (addLog p.logs (YELLOW "=>" ++ " Testing " ++ t.title)).2 < p3.logs.length := by
      have h0 : (addLog p.logs (YELLOW "=>" ++ " Testing " ++ t.title)).2 = p.logs.length := rfl
      omega
    obtain ⟨logs2, hsl, hsllen⟩ := setLog_ok_nat p3.logs
      (addLog p.logs (YELLOW "=>" ++ " Testing " ++ t.title)).2
      (GREEN "✓" ++ " " ++ t.title ++ " " ++ BLUE ("(" ++ tms ++ " ms)")) LogType.log hidx
    rw [hsl]
    dsimp only
    rcases hds : detailedSep cfg ({ p3 with logs := logs2 }, none) with ⟨p4, e4⟩
    obtain ⟨he4, hc4, hf4, hfl4, hab4, hsk4, hlen4⟩ := detailedSep_spec cfg _ _ _ hds
    subst he4
    have e2 : p4.fails = p.fails := hfl4.trans hfl
    refine ⟨p4, rfl, hc4.trans (hc.trans rfl), ?_, ?_, ?_, ?_, ?_, hsk4.trans hsk⟩
    · rw [hbt]
      have e1 : p4.failed = p.failed := hf4.trans hf
      simpa using e1
    · rw [e2, hbt]
      simp
    · rw [e2]
      exact hfo
    · have l4 : logs2.length ≤ p4.logs.length := hlen4
      omega
    · intro hall
      exact hab4.trans (hab hall)
  next p3 err heq =>
    obtain ⟨⟨hc, hf, hfl, hsk⟩, ⟨tl, hlg⟩, herr, hab⟩ := runBody_spec2 cfg t.body _ _ _ heq
    have hbt : bodyThrows cfg t.body = true := by simpa using herr.symm
    have hlen3 : p.logs.length + 1 ≤ p3.logs.length := by
      rw [hlg]
      simp [addLog]
    have hidx : (addLog p.logs (YELLOW "=>" ++ " Testing " ++ t.title)).2 < p3.logs.length := by
      have h0 : (addLog p.logs (YELLOW "=>" ++ " Testing " ++ t.title)).2 = p.logs.length := rfl
      omega
    obtain ⟨logs2, hsl, hsllen⟩ := setLog_ok_nat p3.logs
      (addLog p.logs (YELLOW "=>" ++ " Testing " ++ t.title)).2
      (RED "✗" ++ " " ++ RED t.title ++ "\n    " ++ RED ("✗ " ++ err.message)) LogType.error hidx
    rw [hsl]
    dsimp only
    rcases hds : detailedSep cfg
        ({ p3 with failed := p3.failed + 1, fails := failsBump p3.fails file, logs := logs2 }, none)
      with ⟨p4, e4⟩
    obtain ⟨he4, hc4, hf4, hfl4, hab4, hsk4, hlen4⟩ := detailedSep_spec cfg _ _ _ hds
    subst he4
    have e3 : p3.fails = p.fails := hfl
    refine ⟨p4, rfl, hc4.trans (hc.trans rfl), ?_, ?_, ?_, ?_, ?_, hsk4.trans hsk⟩
    · have e1 : p4.failed = p3.failed + 1 := hf4
      have e1b : p3.failed = p.failed := hf
      simp only [hbt, if_true]
      omega
    · have e2 : p4.fails = failsBump p3.fails file := hfl4
      simp only [hbt, if_true]
      rw [e2, e3, failsBump_sum p.fails file hfo]
    · have e2 : p4.fails = failsBump p3.fails file := hfl4
      rw [e2, e3]
      exact failsBump_keys p.fails file hfo
    · have l4 : logs2.length ≤ p4.logs.length := hlen4
      omega
    · intro hall
      exact hab4.trans (hab hall)

theorem setLog_error_bounds (logs : List LogEntry) (i : Nat) (msg : String) (ty : LogType)
    (e : JsError) (h : setLog logs (i : Int) msg ty = Except.error e) : logs.length ≤ i := by
  by_cases hb : i < logs.length
  · rw [setLog_nat_eq logs i msg ty hb] at h
    dsimp only at h
    split at h <;> cases h
  · omega

theorem setLog_ok_length (logs : List LogEntry) (i : Nat) (msg : String) (ty : LogType)
    (logs2 : List LogEntry) (h : setLog logs (i : Int) msg ty = Except.ok logs2) :
    logs.length ≤ logs2.length := by
  by_cases hb : i < logs.length
  · rw [setLog_nat_eq logs i msg ty hb] at h
    dsimp only at h
    split at h
    · cases h
      unfold listAssign
      split
      · simp
      · simp
    · cases h
      simp
  · exfalso
    unfold setLog at h
    rw [if_neg (by simp; omega)] at h
    cases h

theorem addLog_lt (logs : List LogEntry) (m : String) (ty : LogType) (b : Bool) :
    (addLog logs m ty b).2 < (addLog logs m ty b).1.length := by
  unfold addLog
  split <;> simp

theorem thrownCount_cons (cfg : Verbose) (t : Test) (rest : List Test) :
    thrownCount cfg (t :: rest) =
      (if bodyThrows cfg t.body then 1 else 0) + thrownCount cfg rest := by
  unfold thrownCount
  cases h : bodyThrows cfg t.body <;> simp [List.filter_cons, h, Nat.add_comm]

theorem totalTests_cons (ft : TestFile) (rest : List TestFile) :
    totalTests (ft :: rest) = ft.2.length + totalTests rest := by
  simp [totalTests]

theorem totalThrown_cons (cfg : Verbose) (ft : TestFile) (rest : List TestFile) :
    totalThrown cfg (ft :: rest) = thrownCount cfg ft.2 + totalThrown cfg rest := by
  simp [totalThrown]

theorem runFileTests_spec (cfg : Verbose) (tms file : String) (hcfg : cfg ≠ Verbose.SUMMARY) :
    ∀ (tests : List Test) (ti : Nat) (p : ProgressState),
      p.aborted = false → FailsOk p.fails → ti < p.logs.length →
      (∀ t ∈ tests, t.body.all (fun a => !a.isAbortCall) = true) →
      ∃ p2, runFileTests cfg tms file (ti : Int) tests p = (p2, none) ∧
        p2.count = p.count + tests.length ∧
        p2.failed = p.failed + thrownCount cfg tests ∧
        sumFails p2.fails = sumFails p.fails + thrownCount cfg tests ∧
        FailsOk p2.fails ∧ p2.aborted = false ∧
        p.logs.length ≤ p2.logs.length ∧ p2.skipped = p.skipped := by
  intro tests
  induction tests with
  | nil =>
    intro ti p hab hfo hti hall
    exact ⟨p, rfl, rfl, by simp [thrownCount], by simp [thrownCount], hfo, hab,
      Nat.le_refl _, rfl⟩
  | cons t rest ih =>
    intro ti p hab hfo hti hall
    simp only [runFileTests, hab, Bool.false_eq_true, if_false]
    obtain ⟨q, hq, hqc, hqf, hqs, hqfo, hqlen, hqab, hqsk⟩ :=
      runTest_spec cfg tms file t p hcfg hfo
    rw [hq]
    dsimp only
    have hqab2 : q.aborted = false := (hqab (hall t (List.mem_cons_self t rest))).trans hab
    have hti2 : ti < q.logs.length := lt_of_lt_of_le hti hqlen
    split
    next logs2 heq =>
      have hl2 : q.logs.length ≤ logs2.length := setLog_ok_length _ _ _ _ _ heq
      obtain ⟨p2, hrun, hc2, hf2, hs2, hfo2, hab2, hlen2, hsk2⟩ :=
        ih ti { q with logs := logs2 }
          hqab2 hqfo (lt_of_lt_of_le hti2 hl2) (fun t2 ht2 => hall t2 (List.mem_cons_of_mem t ht2))
      refine ⟨p2, hrun, ?_, ?_, ?_, hfo2, hab2, ?_, hsk2.trans hqsk⟩
      · have e1 : p2.count = q.count + rest.length := hc2
        simp only [List.length_cons]
        omega
      · have e1 : p2.failed = q.failed + thrownCount cfg rest := hf2
        rw [thrownCount_cons]
        cases hbt : bodyThrows cfg t.body <;> simp [hbt] at hqf ⊢ <;> omega
      · have e1 : sumFails p2.fails = sumFails q.fails + thrownCount cfg rest := hs2
        rw [thrownCount_cons]
        cases hbt : bodyThrows cfg t.body <;> simp [hbt] at hqs ⊢ <;> omega
      · have e1 : logs2.length ≤ p2.logs.length := hlen2
        omega
    next e heq =>
      exfalso
      have := setLog_error_bounds _ _ _ _ _ heq
      omega

theorem runFileTests_spec2 (cfg : Verbose) (tms file : String) (hcfg : cfg ≠ Verbose.SUMMARY)
    (tests : List Test) (ti : Nat) (p q : ProgressState) (e : Option JsError)
    (h : runFileTests cfg tms file (ti : Int) tests p = (q, e))
    (hab : p.aborted = false) (hfo : FailsOk p.fails) (hti : ti < p.logs.length)
    (hall : ∀ t ∈ tests, t.body.all (fun a => !a.isAbortCall) = true) :
    e = none ∧ q.count = p.count + tests.length ∧
      q.failed = p.failed + thrownCount cfg tests ∧
      sumFails q.fails = sumFails p.fails + thrownCount cfg tests ∧
      FailsOk q.fails ∧ q.aborted = false ∧ q.skipped = p.skipped := by
  obtain ⟨p2, hrun, hc2, hf2, hs2, hfo2, hab2, _, hsk2⟩ :=
    runFileTests_spec cfg tms file hcfg tests ti p hab hfo hti hall
  rw [hrun] at h
  have h1 := congrArg Prod.fst h
  have h2 := congrArg Prod.snd h
  dsimp only at h1 h2
  subst h1
  exact ⟨h2.symm, hc2, hf2, hs2, hfo2, hab2, hsk2⟩

theorem runFiles_spec (cfg : Verbose) (tms : String) (hcfg : cfg ≠ Verbose.SUMMARY) :
    ∀ (files : List TestFile) (b : Bool) (p : ProgressState),
      p.aborted = false → FailsOk p.fails →
      (∀ ft ∈ files, ∀ t ∈ ft.2, t.body.all (fun a => !a.isAbortCall) = true) →
      ∃ p2, runFiles cfg tms files b p = (p2, none) ∧
        p2.count = p.count + totalTests files ∧
        p2.failed = p.failed + totalThrown cfg files ∧
        sumFails p2.fails = sumFails p.fails + totalThrown cfg files ∧
        FailsOk p2.fails ∧ p2.aborted = false ∧ p2.skipped = p.skipped := by
  intro files
  induction files with
  | nil =>
    intro b p hab hfo hall
    exact ⟨p, rfl, by simp [totalTests], by simp [totalThrown], by simp [totalThrown],
      hfo, hab, rfl⟩
  | cons ft rest ih =>
    obtain ⟨file, tests⟩ := ft
    intro b p hab hfo hall
    simp only [runFiles]
    split
    next q e heq =>
      obtain ⟨he, _, _, _, _, _, _⟩ :=
        runFileTests_spec2 cfg tms file hcfg tests _ _ _ _ heq
          (by dsimp only; split <;> exact hab)
          (by dsimp only; split <;> exact hfo)
          (by dsimp only; exact addLog_lt _ _ _ _)
          (fun t2 ht2 => hall (file, tests) (List.mem_cons_self _ _) t2 ht2)
      cases he
    next q heq =>
      obtain ⟨_, hcq, hfq, hsq, hfoq, habq, hskq⟩ :=
        runFileTests_spec2 cfg tms file hcfg tests _ _ _ _ heq
          (by dsimp only; split <;> exact hab)
          (by dsimp only; split <;> exact hfo)
          (by dsimp only; exact addLog_lt _ _ _ _)
          (fun t2 ht2 => hall (file, tests) (List.mem_cons_self _ _) t2 ht2)
      rw [if_neg (by simp [habq])]
      have hcq2 : q.count = p.count + tests.length := by
        rw [hcq]
        dsimp only
        split <;> rfl
      have hfq2 : q.failed = p.failed + thrownCount cfg tests := by
        rw [hfq]
        dsimp only
        split <;> rfl
      have hsq2 : sumFails q.fails = sumFails p.fails + thrownCount cfg tests := by
        rw [hsq]
        dsimp only
        split <;> rfl
      have hskq2 : q.skipped = p.skipped := by
        rw [hskq]
        dsimp only
        split <;> rfl
      obtain ⟨p2, hrun, hc2, hf2, hs2, hfo2, hab2, hsk2⟩ :=
        ih false q habq hfoq
          (fun ft2 hft2 => hall ft2 (List.mem_cons_of_mem _ hft2))
      refine ⟨p2, hrun, ?_, ?_, ?_, hfo2, hab2, hsk2.trans hskq2⟩
      · rw [totalTests_cons]
        dsimp only
        omega
      · rw [totalThrown_cons]
        dsimp only
        omega
      · rw [totalThrown_cons]
        dsimp only
        omega

/-- C4: the counters of the progress store track the run exactly.  For a run
from the fresh store, under any verbosity other than Summary (where a failing
test crashes the runner, see C2) and with no abort signalled, every
registered test is invoked exactly once (`count = N`), `failed` equals the
number of test bodies that threw, and `failed` always equals the sum of the
per-file failure counts — the catch branch increments `failed` and
`fails[file]` together, so the two aggregates can never drift apart. -/
theorem C4_counter_invariants (cfg : Verbose) (tms : String) (files : List TestFile)
    (hcfg : cfg ≠ Verbose.SUMMARY) (hab : noAbortCalls files = true) :
    (summaryRun cfg tms files initState).2 = none ∧
    (summaryRun cfg tms files initState).1.count = totalTests files ∧
    (summaryRun cfg tms files initState).1.failed = totalThrown cfg files ∧
    (summaryRun cfg tms files initState).1.failed =
      sumFails (summaryRun cfg tms files initState).1.fails := by
  have hall : ∀ ft ∈ files, ∀ t ∈ ft.2, t.body.all (fun a => !a.isAbortCall) = true := by
    intro ft hft t ht
    simp only [noAbortCalls, List.all_eq_true] at hab
    rw [List.all_eq_true]
    exact hab ft hft t ht
  obtain ⟨p2, hrun, hc, hf, hs, _, _, _⟩ :=
    runFiles_spec cfg tms hcfg files true initState rfl (by simp [FailsOk, initState]) hall
  have hpair : summaryRun cfg tms files initState = (p2, none) := hrun
  rw [hpair]
  refine ⟨rfl, ?_, ?_, ?_⟩
  · simpa [initState] using hc
  · simpa [initState] using hf
  · have h0 : sumFails (initState.fails) = 0 := rfl
    have hf2 : p2.failed = totalThrown cfg files := by simpa [initState] using hf
    have hs2 : sumFails p2.fails = totalThrown cfg files := by
      have := hs
      rw [show sumFails initState.fails = 0 from rfl] at this
      simpa using this
    rw [hf2, hs2]

/-- C4 witness: a concrete run — two files, three tests, one of which throws
— realizes the invariant: all three invoked, one failure, and the failure
total matches the per-file sums. -/
theorem C4_counter_invariants_witness :
    (summaryRun Verbose.NONE "" c4files initState).2 = none ∧
    (summaryRun Verbose.NONE "" c4files initState).1.count = totalTests c4files ∧
    (summaryRun Verbose.NONE "" c4files initState).1.failed = totalThrown Verbose.NONE c4files ∧
    (summaryRun Verbose.NONE "" c4files initState).1.failed =
      sumFails (summaryRun Verbose.NONE "" c4files initState).1.fails :=
  C4_counter_invariants Verbose.NONE "" c4files (by decide) (by rfl)

theorem truthy_arrobj (v : JSValue) (hv : v.isArrayV = true ∨ v.isObjV = true) :
    v.truthy = true := by
  rcases hv with h | h <;> cases v <;>
    simp_all [JSValue.isArrayV, JSValue.isObjV, JSValue.truthy]

theorem hasItemE_eq (v i : JSValue) (hv : v.isArrayV = true ∨ v.isObjV = true) :
    hasItemE v i = Except.ok (hasItem v i) := by
  rcases hv with h | h <;> cases v <;>
    simp_all [JSValue.isArrayV, JSValue.isObjV, hasItemE, hasItem]

theorem toHaveLoop_spec (e : ExpectObj) (emsg : String → String)
    (he : e.negate = false) (hv : e.value.isArrayV = true ∨ e.value.isObjV = true) :
    ∀ items : List JSValue,
      (∀ i, firstAbsent e.value items = some i →
        toHaveLoop e emsg items = Except.error ⟨"TestError",
          "Expected " ++ e.name ++ " to " ++ emsg (jsToString i) ++ ".\n    Actual: " ++
            Expect.expectation e.value, none, none⟩) ∧
      (firstAbsent e.value items = none → toHaveLoop e emsg items = Except.ok ()) := by
  intro items
  induction items with
  | nil =>
    refine ⟨fun i hi => ?_, fun _ => rfl⟩
    simp [firstAbsent] at hi
  | cons x rest ih =>
    constructor
    · intro i hi
      cases hx : hasItem e.value x
      · have hfa : firstAbsent e.value (x :: rest) = some x := by
          simp [firstAbsent, List.find?_cons, hx]
        rw [hfa] at hi
        injection hi with hix
        subst hix
        simp [toHaveLoop, hasItemE_eq e.value x hv, hx, he]
      · have hfa : firstAbsent e.value (x :: rest) = firstAbsent e.value rest := by
          simp [firstAbsent, List.find?_cons, hx]
        rw [hfa] at hi
        simp only [toHaveLoop, hasItemE_eq e.value x hv]
        have hred : (!hasItem e.value x && !e.negate) = false := by simp [hx]
        simp [hred]
        exact ih.1 i hi
    · intro hnone
      cases hx : hasItem e.value x
      · exfalso
        have hfa : firstAbsent e.value (x :: rest) = some x := by
          simp [firstAbsent, List.find?_cons, hx]
        rw [hfa] at hnone
        cases hnone
      · have hfa : firstAbsent e.value (x :: rest) = firstAbsent e.value rest := by
          simp [firstAbsent, List.find?_cons, hx]
        rw [hfa] at hnone
        simp only [toHaveLoop, hasItemE_eq e.value x hv]
        have hred : (!hasItem e.value x && !e.negate) = false := by simp [hx]
        simp [hred]
        exact ih.2 hnone

/-! ### Claim theorems -/

/-- C1: the claim says a negated matcher whose underlying predicate is true
throws.  It does not: every matcher of `Expect` guards its `throw` with
`&& !this.negate`, and the negation-failure helper `#error` ("Expected … not
to …, but it is.") is never called.  Evaluating the code at the failing input
`expect('x', 1).not.toBe(1)` (predicate true, negated): the call returns the
assertion object without throwing, as does `expect('b', true).not.toBeTruthy()`;
the claim's non-negated half does hold at this input (third conjunct). -/
theorem C1_negated_matchers_never_throw :
    isOkE (((expectFn Verbose.NONE "x" (JSValue.num (JSNum.int 1)) none).notGet
        Verbose.NONE).toBe (JSValue.num (JSNum.int 1)) []) = true ∧
    isOkE (((expectFn Verbose.NONE "b" (JSValue.bool true) none).notGet
        Verbose.NONE).toBeTruthy []) = true ∧
    isOkE ((expectFn Verbose.NONE "x" (JSValue.num (JSNum.int 1)) none).toBe
        (JSValue.num (JSNum.int 1)) []) = true := by
  refine ⟨rfl, rfl, rfl⟩

/-- C6: `toBeEmpty` accepts only the empty string.  The condition's final
disjunct `this.value !== ""` is true for every non-string value, so the
matcher throws on the empty array and the empty object (first two conjuncts —
the claim says it succeeds there), while the claim's remaining cases behave
as stated: the empty string passes and non-empty strings/arrays/objects
throw. -/
theorem C6_toBeEmpty_rejects_empty_array_and_object :
    (match (expectFn Verbose.NONE "xs" (JSValue.arr []) none).toBeEmpty [] with
      | Except.error e => e.message
      | Except.ok _ => "") =
      "Expected xs to be empty.\n    Actual: " ++ CYAN "[]" ∧
    isOkE ((expectFn Verbose.NONE "o" (JSValue.obj []) none).toBeEmpty []) = false ∧
    isOkE ((expectFn Verbose.NONE "s" (JSValue.str "") none).toBeEmpty []) = true ∧
    isOkE ((expectFn Verbose.NONE "s" (JSValue.str "a") none).toBeEmpty []) = false ∧
    isOkE ((expectFn Verbose.NONE "xs" (JSValue.arr [JSValue.num (JSNum.int 1)]) none).toBeEmpty []) = false ∧
    isOkE ((expectFn Verbose.NONE "o" (JSValue.obj [("a", JSValue.num (JSNum.int 1))]) none).toBeEmpty []) = false := by
  refine ⟨rfl, rfl, rfl, rfl, rfl, rfl⟩

/-- C10: non-negated `toBeNumber` succeeds exactly on values of type number
that are not NaN; in particular NaN — whose `typeof` is `"number"` — is
rejected. -/
theorem C10_toBeNumber_rejects_NaN (cfg : Verbose) (name : String) (logs : List LogEntry) :
    (∀ v : JSValue, isOkE ((expectFn cfg name v none).toBeNumber logs) = v.isNonNaNNumber) ∧
    (JSValue.num JSNum.nan).typeof = "number" ∧
    isOkE ((expectFn cfg name (JSValue.num JSNum.nan) none).toBeNumber logs) = false := by
  refine ⟨fun v => ?_, rfl, rfl⟩
  cases v with
  | undef => rfl
  | null => rfl
  | bool b => rfl
  | num n => cases n <;> rfl
  | str s => rfl
  | arr xs => rfl
  | obj fs => rfl

/-- C7: with an array argument, a non-negated `toHave` on an array or object
fails exactly at the first absent item, in argument order, and its error
message cites that item specifically; it succeeds (returning the assertion
object) precisely when every item is present. -/
theorem C7_toHave_first_absent_wins (cfg : Verbose) (name : String) (v : JSValue)
    (items : List JSValue) (logs : List LogEntry)
    (hv : v.isArrayV = true ∨ v.isObjV = true) :
    (∀ i, firstAbsent v items = some i →
        (expectFn cfg name v none).toHave (JSValue.arr items) logs =
          Except.error ⟨"TestError",
            "Expected " ++ name ++ " to " ++
              (if v.isArrayV then "have element " ++ jsToString i
               else "have property " ++ jsToString i) ++
              ".\n    Actual: " ++ Expect.expectation v,
            none, none⟩) ∧
    (firstAbsent v items = none →
        isOkE ((expectFn cfg name v none).toHave (JSValue.arr items) logs) = true) := by
  have he : (expectFn cfg name v none).negate = false := rfl
  have htr : v.truthy = true := truthy_arrobj v hv
  have hv2 : (expectFn cfg name v none).value.isArrayV = true ∨
      (expectFn cfg name v none).value.isObjV = true := hv
  constructor
  · intro i hi
    unfold ExpectObj.toHave
    rw [if_neg (by simp [expectFn, htr])]
    dsimp only
    rw [(toHaveLoop_spec (expectFn cfg name v none) _ he hv2 items).1 i hi]
    rfl
  · intro hnone
    unfold ExpectObj.toHave
    rw [if_neg (by simp [expectFn, htr])]
    dsimp only
    rw [(toHaveLoop_spec (expectFn cfg name v none) _ he hv2 items).2 hnone]
    rfl

/-- C7 witness: the spec's own example — an object with key `a` but not `b`,
checked with `toHave(['a','b'])` — fails citing `b`, even though `a` is
present; and with `['a']` alone it succeeds. -/
theorem C7_toHave_witness :
    ((JSValue.obj [("a", JSValue.num (JSNum.int 1))]).isArrayV = true ∨
      (JSValue.obj [("a", JSValue.num (JSNum.int 1))]).isObjV = true) ∧
    (expectFn Verbose.NONE "user" (JSValue.obj [("a", JSValue.num (JSNum.int 1))]) none).toHave
        (JSValue.arr [JSValue.str "a", JSValue.str "b"]) [] =
      Except.error ⟨"TestError",
        "Expected user to " ++
          (if (JSValue.obj [("a", JSValue.num (JSNum.int 1))]).isArrayV then
            "have element " ++ jsToString (JSValue.str "b")
           else "have property " ++ jsToString (JSValue.str "b")) ++
          ".\n    Actual: " ++ Expect.expectation (JSValue.obj [("a", JSValue.num (JSNum.int 1))]),
        none, none⟩ ∧
    isOkE ((expectFn Verbose.NONE "user" (JSValue.obj [("a", JSValue.num (JSNum.int 1))]) none).toHave
        (JSValue.arr [JSValue.str "a"]) []) = true :=
  ⟨Or.inr rfl,
    (C7_toHave_first_absent_wins Verbose.NONE "user" (JSValue.obj [("a", JSValue.num (JSNum.int 1))])
        [JSValue.str "a", JSValue.str "b"] [] (Or.inr rfl)).1 (JSValue.str "b") (by rfl),
    (C7_toHave_first_absent_wins Verbose.NONE "user" (JSValue.obj [("a", JSValue.num (JSNum.int 1))])
        [JSValue.str "a"] [] (Or.inr rfl)).2 (by rfl)⟩

/-- C8 counterexample: after adding the title `"ab"` (a reachable store
state: one `addLog` with the title flag from the empty log), the stated
invariant fails: the auto-generated separator is `Array(2).join("-") = "-"`,
one dash short of the title's length, and the separator entry itself carries
the title flag without being followed by its own separator. -/
theorem C8_counterexample :
    titleSepClaim (addLog [] "ab" LogType.log true).1 = false := by
  rfl

/-- C8 amended: the separator discipline the code actually maintains is
local to the two operations — `addLog` with the title flag appends, right
after the new entry, a separator entry of `max(len − 1, 0)` dashes
(`Array(len).join("-")`), itself title-flagged; and `setLog` on a
title-flagged entry rewrites the immediately following slot to the separator
for the new message.  (The global form of the invariant cannot hold: the
separator entries themselves carry the title flag without being followed by
separators of their own, see the counterexample.) -/
theorem C8_amended_separator_postconditions :
    (∀ (logs : List LogEntry) (msg : String) (ty : LogType),
        (addLog logs msg ty true).1.getD (addLog logs msg ty true).2
            ⟨LogType.log, "", false⟩ = ⟨ty, msg, true⟩ ∧
        (addLog logs msg ty true).1.getD ((addLog logs msg ty true).2 + 1)
            ⟨LogType.log, "", false⟩ = ⟨LogType.log, sepOf msg, true⟩) ∧
    (∀ (logs logs' : List LogEntry) (i : Nat) (msg : String) (ty : LogType),
        i < logs.length →
        (logs.getD i ⟨LogType.log, "", false⟩).title = true →
        setLog logs (i : Int) msg ty = Except.ok logs' →
        logs'.getD (i + 1) ⟨LogType.log, "", false⟩ = ⟨LogType.log, sepOf msg, true⟩) := by
  constructor
  · intro logs msg ty
    rw [addLog_title_eq]
    constructor
    · rw [show (logs ++ [⟨ty, msg, true⟩, ⟨LogType.log, sepOf msg, true⟩] : List LogEntry).getD
          logs.length ⟨LogType.log, "", false⟩ =
            ([⟨ty, msg, true⟩, ⟨LogType.log, sepOf msg, true⟩] : List LogEntry).getD
              (logs.length - logs.length) ⟨LogType.log, "", false⟩ from
        List.getD_append_right _ _ _ _ (Nat.le_refl _)]
      simp
    · rw [List.getD_append_right _ _ _ _ (Nat.le_succ_of_le (Nat.le_refl _))]
      simp
  · intro logs logs' i msg ty hi htitle hok
    rw [setLog_nat_eq logs i msg ty hi] at hok
    simp only [htitle, if_pos] at hok
    cases hok
    unfold listAssign
    simp only [List.length_set]
    by_cases h2 : i + 1 < logs.length
    · rw [if_pos h2]
      exact getD_set_self _ _ _ _ (by simpa using h2)
    · rw [if_neg h2]
      have hlen : i + 1 = logs.length := by omega
      rw [List.getD_append_right _ _ _ _ (by simp [← hlen])]
      simp [← hlen]

/-- C8 amended, witnessed at a concrete state: adding the title `"ab"` from
the empty log produces the separator `"-"` right after it, and rewriting that
title entry to `"xyz"` via `setLog` rewrites the following slot to `"--"`. -/
theorem C8_amended_witness :
    (0 : Nat) < ([⟨LogType.log, "ab", true⟩, ⟨LogType.log, "-", true⟩] : List LogEntry).length ∧
    (([⟨LogType.log, "ab", true⟩, ⟨LogType.log, "-", true⟩] : List LogEntry).getD 0
        ⟨LogType.log, "", false⟩).title = true ∧
    (addLog [] "ab" LogType.log true).1.getD ((addLog [] "ab" LogType.log true).2 + 1)
        ⟨LogType.log, "", false⟩ = ⟨LogType.log, sepOf "ab", true⟩ ∧
    ([⟨LogType.log, "xyz", true⟩, ⟨LogType.log, sepOf "xyz", true⟩] : List LogEntry).getD 1
        ⟨LogType.log, "", false⟩ = ⟨LogType.log, sepOf "xyz", true⟩ :=
  ⟨by decide, by rfl,
    (C8_amended_separator_postconditions.1 [] "ab" LogType.log).2,
    C8_amended_separator_postconditions.2
      [⟨LogType.log, "ab", true⟩, ⟨LogType.log, "-", true⟩]
      [⟨LogType.log, "xyz", true⟩, ⟨LogType.log, sepOf "xyz", true⟩]
      0 "xyz" LogType.log (by decide) (by rfl) (by rfl)⟩

/-- C2: the claim promises containment of per-test exceptions for every
verbosity; under Summary verbosity it fails.  Evaluating the code at the
failing input (file `"a"` with a throwing test `t1` followed by `t2`, run
with `--summary`): the catch branch calls `progress.setLog(-1, …)` — the
pending-entry index is `-1` because the success path's verbosity guard is
missing from the catch — which itself throws, escapes the closure and the
runner, so `t2` is never invoked (`count` stays 1). -/
theorem C2_summary_verbosity_failure_escapes :
    (summaryRun Verbose.SUMMARY "" c2files initState).1.count = 1 ∧
    (summaryRun Verbose.SUMMARY "" c2files initState).1.failed = 1 ∧
    ((summaryRun Verbose.SUMMARY "" c2files initState).2.map JsError.message) =
      some "Index -1 is out of bounds for logs array." ∧
    summaryExit Verbose.SUMMARY "" c2files initState = none := by
  refine ⟨rfl, rfl, rfl, rfl⟩

/-- C3 counterexample: in the run of `c3files` (t1 throws, t2 signals abort,
t3 never runs) the abort semantics hold for execution and exit status — `t3`
does not run (`count = 2`), the run completes and exits with status 2 — but
the report line is the FAILURE line, not an aborted line: `summary` prints
the aborted line only when `progress.failed === 0`, so the claim's "reports
an aborted outcome distinct from failure" is false at this state. -/
theorem C3_counterexample :
    (summaryRun Verbose.NONE "" c3files initState).1.count = 2 ∧
    (summaryRun Verbose.NONE "" c3files initState).1.failed = 1 ∧
    (summaryRun Verbose.NONE "" c3files initState).1.aborted = true ∧
    summaryExit Verbose.NONE "" c3files initState = some 2 ∧
    aggregateLine (summaryRun Verbose.NONE "" c3files initState).1 =
      "\n" ++ WHITE ">" ++ " " ++ RED "1 out of 2 tests failed!" ∧
    strContains (aggregateLine (summaryRun Verbose.NONE "" c3files initState).1)
      "Tests aborted" = false := by
  refine ⟨rfl, rfl, rfl, rfl, rfl, rfl⟩

/-- C3 amended: once the abort flag is set, no further test of the current
file is invoked (`runFileTests` returns its state unchanged — in particular
`count` no longer increments), the remaining files are skipped (the outer
loop stops after the current file's header, leaving counters untouched), and
the process exits with status 2; the summary line reports the aborted outcome
only when no executed test failed — when `failed > 0` the failure line takes
precedence over the aborted line. -/
theorem C3_amended_abort_semantics :
    (∀ (cfg : Verbose) (tms file : String) (i : Int) (tests : List Test) (p : ProgressState),
        p.aborted = true → runFileTests cfg tms file i tests p = (p, none)) ∧
    (∀ (cfg : Verbose) (tms : String) (files : List TestFile) (b : Bool) (p : ProgressState),
        p.aborted = true →
        ∃ q, runFiles cfg tms files b p = (q, none) ∧ q.count = p.count ∧
          q.failed = p.failed ∧ q.aborted = true) ∧
    (∀ p : ProgressState, p.aborted = true → exitCode p = 2) ∧
    (∀ p : ProgressState, p.aborted = true → p.failed = 0 →
        aggregateLine p = "\n" ++ WHITE ">" ++ " " ++
          YELLOW ("Tests aborted: " ++ p.abortMessage.getD "Test execution was stopped")) := by
  have part1 : ∀ (cfg : Verbose) (tms file : String) (i : Int) (tests : List Test)
      (p : ProgressState), p.aborted = true → runFileTests cfg tms file i tests p = (p, none) := by
    intro cfg tms file i tests p h
    cases tests with
    | nil => rfl
    | cons t rest => simp [runFileTests, h]
  refine ⟨part1, ?_, ?_, ?_⟩
  · intro cfg tms files b p h
    cases files with
    | nil => exact ⟨p, rfl, rfl, rfl, h⟩
    | cons ft rest =>
      obtain ⟨file, tests⟩ := ft
      simp only [runFiles]
      split
      next p1 e heq =>
        rw [part1] at heq
        · exact absurd (congrArg Prod.snd heq) (by simp)
        · dsimp only
          split <;> exact h
      next p1 heq =>
        rw [part1] at heq
        · have h1 := congrArg Prod.fst heq
          dsimp only at h1
          have hb : p1.aborted = true := by
            rw [← h1]; dsimp only; split <;> exact h
          have hc : p1.count = p.count := by
            rw [← h1]; dsimp only; split <;> rfl
          have hf2 : p1.failed = p.failed := by
            rw [← h1]; dsimp only; split <;> rfl
          exact ⟨p1, by rw [if_pos hb], hc, hf2, hb⟩
        · dsimp only
          split <;> exact h
  · intro p h
    simp [exitCode, h]
  · intro p h hf
    simp [aggregateLine, h, hf]

/-- C3 amended, witnessed at concrete states: with the abort flag set, a
file's tests are skipped, counters stay put over a whole `runFiles` pass, the
exit status is 2, and (with no failures recorded) the aggregate line is the
aborted line. -/
theorem C3_amended_witness :
    ({ aborted := true } : ProgressState).aborted = true ∧
    runFileTests Verbose.NONE "" "a" 0 [⟨"t", []⟩] { aborted := true } =
      ({ aborted := true }, none) ∧
    (∃ q, runFiles Verbose.NONE "" [("a", [⟨"t", []⟩])] true { aborted := true } = (q, none) ∧
      q.count = ({ aborted := true } : ProgressState).count ∧
      q.failed = ({ aborted := true } : ProgressState).failed ∧ q.aborted = true) ∧
    exitCode { aborted := true } = 2 ∧
    aggregateLine { aborted := true } = "\n" ++ WHITE ">" ++ " " ++
      YELLOW ("Tests aborted: " ++ (none : Option String).getD "Test execution was stopped") :=
  ⟨rfl,
    C3_amended_abort_semantics.1 Verbose.NONE "" "a" 0 [⟨"t", []⟩] { aborted := true } rfl,
    C3_amended_abort_semantics.2.1 Verbose.NONE "" [("a", [⟨"t", []⟩])] true { aborted := true } rfl,
    C3_amended_abort_semantics.2.2.1 { aborted := true } rfl,
    C3_amended_abort_semantics.2.2.2 { aborted := true } rfl rfl⟩

/-- C5: whenever the runner reaches `process.exit` (no exception escaped),
the status is exactly 2 on an aborted run, 1 on a non-aborted run with at
least one failure, and 0 on a non-aborted run with no failures — abort takes
precedence over failure in the exit-status computation. -/
theorem C5_exit_status_mapping (cfg : Verbose) (tms : String) (files : List TestFile)
    (p0 : ProgressState) (h : (summaryRun cfg tms files p0).2 = none) :
    summaryExit cfg tms files p0 = some (exitCode (summaryRun cfg tms files p0).1) ∧
    (exitCode (summaryRun cfg tms files p0).1 = 2 ↔
      (summaryRun cfg tms files p0).1.aborted = true) ∧
    (exitCode (summaryRun cfg tms files p0).1 = 1 ↔
      ((summaryRun cfg tms files p0).1.aborted = false ∧
        0 < (summaryRun cfg tms files p0).1.failed)) ∧
    (exitCode (summaryRun cfg tms files p0).1 = 0 ↔
      ((summaryRun cfg tms files p0).1.aborted = false ∧
        (summaryRun cfg tms files p0).1.failed = 0)) := by
  have hpair : summaryRun cfg tms files p0 = ((summaryRun cfg tms files p0).1, none) := by
    rw [← h]
  refine ⟨?_, ?_, ?_, ?_⟩
  · unfold summaryExit
    rw [hpair]
  all_goals
    generalize (summaryRun cfg tms files p0).1 = p
    unfold exitCode
    rcases hA : p.aborted <;> rcases Nat.eq_zero_or_pos p.failed with hF | hF <;>
      simp [hA, hF] <;> omega

/-- C5 witness: the three outcome classes realized on concrete runs — an
all-passing run exits 0, a run with a failure exits 1, an aborted run exits
2. -/
theorem C5_exit_status_witness :
    summaryExit Verbose.NONE "" c5passFiles initState = some 0 ∧
    summaryExit Verbose.NONE "" c5failFiles initState = some 1 ∧
    summaryExit Verbose.NONE "" c5abortFiles initState = some 2 := by
  refine ⟨?_, ?_, ?_⟩
  · exact ((C5_exit_status_mapping Verbose.NONE "" c5passFiles initState rfl).1).trans rfl
  · exact ((C5_exit_status_mapping Verbose.NONE "" c5failFiles initState rfl).1).trans rfl
  · exact ((C5_exit_status_mapping Verbose.NONE "" c5abortFiles initState rfl).1).trans rfl

/-- C9 counterexample: running Scenario B (`test('t2', () =>
expect('x', 1).toBe(2))` in file `"a"`), the run exits with code 1 and the
per-test entry records an error — but its message does not contain
"Expected x to be 2": `toBe` throws the "Comparison failed: expected values
to be strictly equal (===)" message, which never mentions the assertion
name. -/
theorem C9_counterexample :
    summaryExit Verbose.NONE "" c9files initState = some 1 ∧
    (summaryRun Verbose.NONE "" c9files initState).1.logs.length = 3 ∧
    c9entry.type = LogType.error ∧
    strContains c9entry.message "Expected x to be 2" = false := by
  refine ⟨rfl, rfl, rfl, rfl⟩

/-- C9 amended: Scenario B exits with code 1 and the per-test log entry is an
error whose message contains the failing title `t2`, the strict-equality
failure text, the expected value `2` and the actual value `1` (both rendered
through `Expect.expectation`, i.e. magenta-colored). -/
theorem C9_amended_failure_message :
    summaryExit Verbose.NONE "" c9files initState = some 1 ∧
    c9entry.type = LogType.error ∧
    strContains c9entry.message "t2" = true ∧
    strContains c9entry.message
      "Comparison failed: expected values to be strictly equal (===)" = true ∧
    strContains c9entry.message ("Expected: " ++ MAGENTA "2") = true ∧
    strContains c9entry.message ("Received: " ++ MAGENTA "1") = true := by
  refine ⟨rfl, rfl, rfl, rfl, rfl, rfl⟩

end Ektest
